import Mathlib

/-!
Verification development for the mentor-matching engine
(`mentor_matching_app.py`): similarity primitives, the weighted
match scorer with its rationale string, the per-mentee ranking step,
and the downstream minimum-score filter.

Conventions of the shallow embedding:
* a pandas cell that may be `NaN` is modelled as `Option String`
  (`none` is `NaN`; `pd.isna` is `Option.isNone`);
* Python `float` arithmetic is modelled with `ℚ`;
* Python's `round(x, 1)` and the `%.0f` format use round-half-to-even,
  modelled exactly by `roundHalfEven`;
* Python `str.split(',')` is `pySplitComma` (keeps empty pieces and
  returns one piece for the empty string), `str.strip` is `pyStrip`,
  `str.lower` is `pyLower`, and Python `set(...)` is `List.toFinset`;
* Python's stable `list.sort(key=..., reverse=True)` is
  `List.mergeSort` with the descending-by-score comparison;
* Python's slice `l[:n]` (which clamps, and counts from the end for
  negative `n`) is `pyTake`.
-/

/-- The empty string (Python `""`). -/
def emptyStr : String := ""

/-- The comma separator used by all multi-value fields. -/
def sepComma : String := ","

/-- The wildcard token recognised by the format-compatibility check. -/
def wildcardEither : String := "either"

/-- Separator used when joining rationale clauses (Python `"; ".join`). -/
def joinSep : String := "; "

/-- Python slice `l[:n]` for an arbitrary integer bound `n`:
nonnegative bounds clamp to the length, negative bounds count from the
end of the list. -/
def pyTake (n : ℤ) (l : List α) : List α :=
  if 0 ≤ n then l.take n.toNat else l.take ((l.length : ℤ) + n).toNat

/-- Python `sep.join(parts)`. -/
def pyJoin (sep : String) : List String → String
  | [] => emptyStr
  | [x] => x
  | x :: y :: rest => x ++ sep ++ pyJoin sep (y :: rest)

/-- Does the second character list start with the first one? -/
def charsStartWith : List Char → List Char → Bool
  | [], _ => true
  | _ :: _, [] => false
  | a :: as, b :: bs => a == b && charsStartWith as bs

/-- Does the character list contain `needle` as a contiguous run? -/
def charsContain (needle : List Char) : List Char → Bool
  | [] => needle.isEmpty
  | c :: rest => charsStartWith needle (c :: rest) || charsContain needle rest

/-- Python's substring test `needle in hay`. -/
def pyInStr (needle hay : String) : Bool :=
  charsContain needle.data hay.data

/-- The comma character on which multi-value fields are split. -/
def commaChar : Char := ','

/-- Python `s.split(sep)` for a one-character separator: keeps empty
pieces and yields one (possibly empty) piece for the empty string. -/
def splitOnChar (sep : Char) : List Char → List (List Char)
  | [] => [[]]
  | c :: rest =>
    match splitOnChar sep rest, c == sep with
    | [], _ => [[]]
    | h :: t, true => [] :: h :: t
    | h :: t, false => (c :: h) :: t

/-- Characters removed from both ends by Python `str.strip()`. -/
def trimChars (cs : List Char) : List Char :=
  ((cs.dropWhile Char.isWhitespace).reverse.dropWhile Char.isWhitespace).reverse

/-- Python `s.strip()`. -/
def pyStrip (s : String) : String :=
  String.mk (trimChars s.data)

/-- Python `s.lower()`. -/
def pyLower (s : String) : String :=
  String.mk (s.data.map Char.toLower)

/-- Python `s.split(',')`. -/
def pySplitComma (s : String) : List String :=
  (splitOnChar commaChar s.data).map String.mk

/-- Round-half-to-even to an integer, as Python's `round` and `%.0f`
format do. -/
def roundHalfEven (q : ℚ) : ℤ :=
  let n := ⌊q⌋
  let frac := q - (n : ℚ)
  if frac < 1/2 then n
  else if 1/2 < frac then n + 1
  else if n % 2 = 0 then n else n + 1

/-- Python `round(x, 1)`: round to one decimal place. -/
def round1 (q : ℚ) : ℚ :=
  (roundHalfEven (q * 10) : ℚ) / 10

/-- Python `f"{x:.0f}"`: format with no decimals. -/
def fmt0 (q : ℚ) : String :=
  toString (roundHalfEven q)

/-- The (normalised) token set of a comma-separated field:
`set([t.strip().lower() for t in s.split(',')])`. -/
def tokenSet (s : String) : Finset String :=
  (((pySplitComma s).map fun t => pyLower (pyStrip t))).toFinset

/-- Mentor record, restricted to the columns the scoring engine and the
ranker read (`MentorID`, `Name`, `Email` are copied into the result
rows; the remaining columns of the mentors table never reach the core). -/
structure MentorRow where
  MentorID : String
  Name : String
  Email : String
  TimeZone : Option String
  Languages : Option String
  Sectors : Option String
  Expertise : Option String
  Functions : Option String
  Availability : Option String
  Format : Option String
deriving DecidableEq

/-- Mentee record, restricted to the columns the scoring engine and the
ranker read. -/
structure MenteeRow where
  MenteeID : String
  Name : String
  Email : String
  ProjectName : String
  LPOC : String
  Sector : Option String
  Needs : Option String
  Languages : Option String
  TimeZone : Option String
  Availability : Option String
  Format : Option String
deriving DecidableEq

/-- `calculate_tag_overlap`: percentage Jaccard overlap of two
comma-separated tag strings.  Returns `0` when either side is `NaN` or
the empty string, otherwise `100 * |A ∩ B| / |A ∪ B|` on the normalised
token sets. -/
def calculate_tag_overlap (tags1 tags2 : Option String) : ℚ :=
  match tags1, tags2 with
  | some t1, some t2 =>
    if t1 = emptyStr ∨ t2 = emptyStr then 0
    else
      let set1 := tokenSet t1
      let set2 := tokenSet t2
      if set1 = ∅ ∨ set2 = ∅ then 0
      else
        let i := (set1 ∩ set2).card
        let u := (set1 ∪ set2).card
        if 0 < u then ((i : ℚ) / (u : ℚ)) * 100 else 0
  | _, _ => 0

/-- `check_language_match`: true when the two normalised language token
sets intersect; false when either side is `NaN`. -/
def check_language_match (mentor_langs mentee_langs : Option String) : Bool :=
  match mentor_langs, mentee_langs with
  | some x, some y => decide (0 < (tokenSet x ∩ tokenSet y).card)
  | _, _ => false

/-- `check_format_compatibility`: true when either side is `NaN`, when
either trimmed lower-cased value contains the substring `"either"`, or
when the two trimmed lower-cased values are equal. -/
def check_format_compatibility (mentor_format mentee_format : Option String) : Bool :=
  match mentor_format, mentee_format with
  | some a, some b =>
    let mentor_fmt := pyLower (pyStrip a)
    let mentee_fmt := pyLower (pyStrip b)
    if pyInStr wildcardEither mentor_fmt || pyInStr wildcardEither mentee_fmt then true
    else mentor_fmt == mentee_fmt
  | _, _ => true

/-- `check_timezone_compatibility`: true when either side is `NaN` or
the trimmed lower-cased labels coincide. -/
def check_timezone_compatibility (mentor_tz mentee_tz : Option String) : Bool :=
  match mentor_tz, mentee_tz with
  | some a, some b => pyLower (pyStrip a) == pyLower (pyStrip b)
  | _, _ => true

/-- Fixed clause built when sector overlap exceeds 50. -/
def sectorClausePre : String := "Strong sector alignment ("

/-- Fixed clause built when expertise overlap exceeds 50. -/
def expertiseClausePre : String := "High expertise-needs match ("

/-- Fixed clause built when function overlap exceeds 40. -/
def functionClausePre : String := "Functional fit ("

/-- Closing text of the percentage clauses. -/
def pctClose : String := "%)"

/-- Clause appended when the two sides share a language. -/
def commonLanguageClause : String := "Common language"

/-- Clause appended when the two sides share no language. -/
def noLanguageClause : String := "⚠️ No language overlap"

/-- Clause appended when the meeting formats are compatible. -/
def formatClause : String := "Format compatible"

/-- Clause appended when the timezones are compatible. -/
def timezoneClause : String := "Same timezone"

/-- The six weighted entries of the `score_components` dictionary built
by `calculate_match_score`; each field already carries its weight. -/
structure ScoreComponents where
  sector_expertise : ℚ
  language : ℚ
  format : ℚ
  timezone : ℚ
  availability : ℚ
  functions : ℚ
deriving DecidableEq

/-- The `score_components` dictionary of `calculate_match_score`. -/
def scoreComponents (mentor_row : MentorRow) (mentee_row : MenteeRow) : ScoreComponents :=
  let sector_overlap := calculate_tag_overlap mentor_row.Sectors mentee_row.Sector
  let expertise_overlap := calculate_tag_overlap mentor_row.Expertise mentee_row.Needs
  let sector_score := sector_overlap * (4/10) + expertise_overlap * (6/10)
  let language_score : ℚ := if check_language_match mentor_row.Languages mentee_row.Languages then 100 else 0
  let format_score : ℚ := if check_format_compatibility mentor_row.Format mentee_row.Format then 100 else 30
  let timezone_score : ℚ := if check_timezone_compatibility mentor_row.TimeZone mentee_row.TimeZone then 100 else 50
  let availability_score : ℚ :=
    if mentor_row.Availability.isSome && mentee_row.Availability.isSome then 100 else 50
  let function_overlap := calculate_tag_overlap mentor_row.Functions mentee_row.Needs
  { sector_expertise := sector_score * (30/100)
    language := language_score * (20/100)
    format := format_score * (15/100)
    timezone := timezone_score * (10/100)
    availability := availability_score * (15/100)
    functions := function_overlap * (10/100) }

/-- The `rationale_parts` list of `calculate_match_score`, in the order
the source appends the clauses. -/
def rationaleParts (mentor_row : MentorRow) (mentee_row : MenteeRow) : List String :=
  let sector_overlap := calculate_tag_overlap mentor_row.Sectors mentee_row.Sector
  let expertise_overlap := calculate_tag_overlap mentor_row.Expertise mentee_row.Needs
  let function_overlap := calculate_tag_overlap mentor_row.Functions mentee_row.Needs
  (if 50 < sector_overlap then [sectorClausePre ++ fmt0 sector_overlap ++ pctClose] else [])
  ++ (if 50 < expertise_overlap then [expertiseClausePre ++ fmt0 expertise_overlap ++ pctClose] else [])
  ++ [if check_language_match mentor_row.Languages mentee_row.Languages then
        commonLanguageClause else noLanguageClause]
  ++ (if check_format_compatibility mentor_row.Format mentee_row.Format then [formatClause] else [])
  ++ (if check_timezone_compatibility mentor_row.TimeZone mentee_row.TimeZone then [timezoneClause] else [])
  ++ (if 40 < function_overlap then [functionClausePre ++ fmt0 function_overlap ++ pctClose] else [])

/-- `calculate_match_score`: the weighted compatibility score, rounded
to one decimal place, together with the joined rationale string. -/
def calculate_match_score (mentor_row : MentorRow) (mentee_row : MenteeRow) : ℚ × String :=
  let c := scoreComponents mentor_row mentee_row
  let total_score := c.sector_expertise + c.language + c.format + c.timezone + c.availability + c.functions
  (round1 total_score, pyJoin joinSep (rationaleParts mentor_row mentee_row))

/-- One row of the list built by `find_best_matches`. -/
structure ScoredCandidate where
  MenteeID : String
  MenteeName : String
  MenteeEmail : String
  ProjectName : String
  LPOC : String
  MentorID : String
  MentorName : String
  MentorEmail : String
  Score : ℚ
  Rationale : String
deriving DecidableEq

/-- The `mentee_matches` list built by the inner loop of
`find_best_matches`: one scored candidate per mentor, in mentor input
order. -/
def mentee_matches_for (mentors : List MentorRow) (mentee : MenteeRow) : List ScoredCandidate :=
  mentors.map fun mentor =>
    let sr := calculate_match_score mentor mentee
    { MenteeID := mentee.MenteeID
      MenteeName := mentee.Name
      MenteeEmail := mentee.Email
      ProjectName := mentee.ProjectName
      LPOC := mentee.LPOC
      MentorID := mentor.MentorID
      MentorName := mentor.Name
      MentorEmail := mentor.Email
      Score := sr.1
      Rationale := sr.2 }

/-- Comparison used by `mentee_matches.sort(key=lambda x: x['Score'],
reverse=True)`: descending by score. -/
def scoreDescLe (a b : ScoredCandidate) : Bool :=
  decide (b.Score ≤ a.Score)

/-- Python's stable descending sort of a candidate list. -/
def sortByScoreDesc (l : List ScoredCandidate) : List ScoredCandidate :=
  l.mergeSort scoreDescLe

/-- `find_best_matches`: per mentee, score every mentor, sort the
candidates by descending score (stable), keep the slice `[:top_n]`,
and append the kept slice to the accumulated list. -/
def find_best_matches (mentors_df : List MentorRow) (mentees_df : List MenteeRow)
    (top_n : ℤ) : List ScoredCandidate :=
  mentees_df.foldl
    (fun all_matches mentee =>
      all_matches ++ pyTake top_n (sortByScoreDesc (mentee_matches_for mentors_df mentee)))
    []

/-- The Smart Matching page's post-ranking filter
`matches_df[matches_df['Score'] >= min_score]`. -/
def thresholdFilter (l : List ScoredCandidate) (min_score : ℚ) : List ScoredCandidate :=
  l.filter fun c => decide (min_score ≤ c.Score)

/-- Raw (unweighted) value of the combined sector/expertise component. -/
def sectorExpertiseRaw (m : MentorRow) (e : MenteeRow) : ℚ :=
  calculate_tag_overlap m.Sectors e.Sector * (4/10)
    + calculate_tag_overlap m.Expertise e.Needs * (6/10)

/-- Raw value of the language component. -/
def languageRaw (m : MentorRow) (e : MenteeRow) : ℚ :=
  if check_language_match m.Languages e.Languages then 100 else 0

/-- Raw value of the format component. -/
def formatRaw (m : MentorRow) (e : MenteeRow) : ℚ :=
  if check_format_compatibility m.Format e.Format then 100 else 30

/-- Raw value of the timezone component. -/
def timezoneRaw (m : MentorRow) (e : MenteeRow) : ℚ :=
  if check_timezone_compatibility m.TimeZone e.TimeZone then 100 else 50

/-- Raw value of the availability component. -/
def availabilityRaw (m : MentorRow) (e : MenteeRow) : ℚ :=
  if m.Availability.isSome && e.Availability.isSome then 100 else 50

/-- Raw value of the function-fit component. -/
def functionsRaw (m : MentorRow) (e : MenteeRow) : ℚ :=
  calculate_tag_overlap m.Functions e.Needs

/-- A value the specification's shared edge-case policy counts as
absent: `NaN` (`none`) or a string that is empty after trimming. -/
def specAbsent (a : Option String) : Bool :=
  match a with
  | none => true
  | some x => pyStrip x == emptyStr

/-- Format compatibility exactly as claim C6 words it, reading
"absent" by the specification's shared edge-case policy. -/
def formatsCompatibleSpec (a b : Option String) : Bool :=
  if specAbsent a || specAbsent b then true
  else
    match a, b with
    | some x, some y =>
      if pyInStr wildcardEither (pyLower (pyStrip x))
          || pyInStr wildcardEither (pyLower (pyStrip y)) then true
      else pyLower (pyStrip x) == pyLower (pyStrip y)
    | _, _ => true

/-- Is an optional field present and not the empty string? (claim C5's
reading of "non-empty") -/
def nonEmptyOpt (a : Option String) : Bool :=
  match a with
  | some x => !(x == emptyStr)
  | none => false

/-- Availability raw value exactly as claim C5 words it: 100 iff both
fields are present and non-empty, else 50. -/
def availabilityRawSpec (m : MentorRow) (e : MenteeRow) : ℚ :=
  if nonEmptyOpt m.Availability && nonEmptyOpt e.Availability then 100 else 50

/-- Sector tags of the end-to-end scenario's mentor. -/
def strFinTechHealthTech : String := "FinTech,HealthTech"

/-- Expertise of the end-to-end scenario's mentor. -/
def strFundraising : String := "Fundraising"

/-- Languages of the end-to-end scenario's mentor. -/
def strEnglish : String := "English"

/-- Availability of the end-to-end scenario's mentor. -/
def strMonFri : String := "Mon-Fri"

/-- Meeting format of the end-to-end scenario. -/
def strRemote : String := "Remote"

/-- Timezone of the end-to-end scenario. -/
def strUTC1 : String := "UTC+1"

/-- Sector of the end-to-end scenario's mentee. -/
def strFinTech : String := "FinTech"

/-- Languages of the end-to-end scenario's mentee. -/
def strEnglishPortuguese : String := "English,Portuguese"

/-- Availability of the end-to-end scenario's mentee. -/
def strTue : String := "Tue"

/-- The wildcard format value, capitalised as the mentor form offers it. -/
def strEither : String := "Either"

/-- The in-person format value as the form offers it. -/
def strInPerson : String := "In-person"

/-- A whitespace-only string: empty after trimming but not falsy in
Python. -/
def strSpace : String := " "

/-- First argument of the specification's tag-overlap example. -/
def strFinTechAI : String := "FinTech, AI"

/-- Second argument of the specification's tag-overlap example. -/
def strAiFintech : String := "ai, fintech"

/-- The mentor of the specification's end-to-end scenario. -/
def mentorC8 : MentorRow :=
  { MentorID := "M1"
    Name := "Mentor One"
    Email := "mentor1@example.org"
    TimeZone := some strUTC1
    Languages := some strEnglish
    Sectors := some strFinTechHealthTech
    Expertise := some strFundraising
    Functions := some emptyStr
    Availability := some strMonFri
    Format := some strRemote }

/-- The mentee of the specification's end-to-end scenario. -/
def menteeC8 : MenteeRow :=
  { MenteeID := "E1"
    Name := "Mentee One"
    Email := "mentee1@example.org"
    ProjectName := "Project One"
    LPOC := "LPOC One"
    Sector := some strFinTech
    Needs := some strFundraising
    Languages := some strEnglishPortuguese
    TimeZone := some strUTC1
    Availability := some strTue
    Format := some strRemote }

/-- The scenario mentor with an empty (but present) availability cell. -/
def mentorEmptyAvail : MentorRow :=
  { mentorC8 with Availability := some emptyStr }

/-- The scenario mentee with an empty (but present) availability cell. -/
def menteeEmptyAvail : MenteeRow :=
  { menteeC8 with Availability := some emptyStr }

lemma calculate_tag_overlap_nonneg (a b : Option String) :
    0 ≤ calculate_tag_overlap a b := by
  rcases a with _ | t1
  · exact le_refl 0
  rcases b with _ | t2
  · exact le_refl 0
  simp only [calculate_tag_overlap]
  split_ifs
  · exact le_refl 0
  · exact le_refl 0
  · positivity
  · exact le_refl 0

lemma calculate_tag_overlap_le_100 (a b : Option String) :
    calculate_tag_overlap a b ≤ 100 := by
  rcases a with _ | t1
  · exact le_of_lt (by norm_num : (0:ℚ) < 100)
  rcases b with _ | t2
  · exact le_of_lt (by norm_num : (0:ℚ) < 100)
  simp only [calculate_tag_overlap]
  split_ifs with h1 h2 h3
  · norm_num
  · norm_num
  · have hu : (0:ℚ) < ((tokenSet t1 ∪ tokenSet t2).card : ℚ) := by exact_mod_cast h3
    have hiu : ((tokenSet t1 ∩ tokenSet t2).card : ℚ)
        ≤ ((tokenSet t1 ∪ tokenSet t2).card : ℚ) := by
      exact_mod_cast Finset.card_le_card (Finset.inter_subset_union)
    calc ((tokenSet t1 ∩ tokenSet t2).card : ℚ) / ((tokenSet t1 ∪ tokenSet t2).card : ℚ) * 100
        ≤ 1 * 100 := by
          apply mul_le_mul_of_nonneg_right ((div_le_one hu).mpr hiu)
          norm_num
      _ = 100 := one_mul 100
  · norm_num

lemma floor_le_roundHalfEven (q : ℚ) : ⌊q⌋ ≤ roundHalfEven q := by
  unfold roundHalfEven
  dsimp only
  split_ifs <;> omega

lemma roundHalfEven_nonneg {q : ℚ} (h : 0 ≤ q) : 0 ≤ roundHalfEven q :=
  le_trans (Int.floor_nonneg.mpr h) (floor_le_roundHalfEven q)

lemma roundHalfEven_le_of_le {q : ℚ} {B : ℤ} (h : q ≤ (B : ℚ)) :
    roundHalfEven q ≤ B := by
  have hfloor : ⌊q⌋ ≤ B := by
    calc ⌊q⌋ ≤ ⌊(B:ℚ)⌋ := Int.floor_le_floor h
      _ = B := Int.floor_intCast B
  unfold roundHalfEven
  dsimp only
  split_ifs with h1 h2 h3
  · exact hfloor
  · have hlt : ((⌊q⌋ : ℚ)) < q := by linarith
    have : (⌊q⌋ : ℚ) < (B : ℚ) := lt_of_lt_of_le hlt h
    have : ⌊q⌋ < B := by exact_mod_cast this
    omega
  · exact hfloor
  · have heq : q - (⌊q⌋ : ℚ) = 1/2 := le_antisymm (not_lt.mp h2) (not_lt.mp h1)
    have hlt : ((⌊q⌋ : ℚ)) < q := by linarith
    have : (⌊q⌋ : ℚ) < (B : ℚ) := lt_of_lt_of_le hlt h
    have : ⌊q⌋ < B := by exact_mod_cast this
    omega

lemma round1_nonneg {q : ℚ} (h : 0 ≤ q) : 0 ≤ round1 q := by
  unfold round1
  have : (0:ℚ) ≤ (roundHalfEven (q * 10) : ℚ) := by
    exact_mod_cast roundHalfEven_nonneg (by positivity)
  positivity

lemma round1_le_100 {q : ℚ} (h : q ≤ 100) : round1 q ≤ 100 := by
  unfold round1
  have hb : roundHalfEven (q * 10) ≤ (1000 : ℤ) := by
    apply roundHalfEven_le_of_le
    push_cast
    linarith
  have : (roundHalfEven (q * 10) : ℚ) ≤ 1000 := by exact_mod_cast hb
  linarith

lemma sectorExpertiseRaw_bounds (m : MentorRow) (e : MenteeRow) :
    0 ≤ sectorExpertiseRaw m e ∧ sectorExpertiseRaw m e ≤ 100 := by
  have h1 := calculate_tag_overlap_nonneg m.Sectors e.Sector
  have h2 := calculate_tag_overlap_le_100 m.Sectors e.Sector
  have h3 := calculate_tag_overlap_nonneg m.Expertise e.Needs
  have h4 := calculate_tag_overlap_le_100 m.Expertise e.Needs
  unfold sectorExpertiseRaw
  constructor <;> linarith

lemma languageRaw_bounds (m : MentorRow) (e : MenteeRow) :
    0 ≤ languageRaw m e ∧ languageRaw m e ≤ 100 := by
  unfold languageRaw; split_ifs <;> norm_num

lemma formatRaw_bounds (m : MentorRow) (e : MenteeRow) :
    0 ≤ formatRaw m e ∧ formatRaw m e ≤ 100 := by
  unfold formatRaw; split_ifs <;> norm_num

lemma timezoneRaw_bounds (m : MentorRow) (e : MenteeRow) :
    0 ≤ timezoneRaw m e ∧ timezoneRaw m e ≤ 100 := by
  unfold timezoneRaw; split_ifs <;> norm_num

lemma availabilityRaw_bounds (m : MentorRow) (e : MenteeRow) :
    0 ≤ availabilityRaw m e ∧ availabilityRaw m e ≤ 100 := by
  unfold availabilityRaw; split_ifs <;> norm_num

lemma functionsRaw_bounds (m : MentorRow) (e : MenteeRow) :
    0 ≤ functionsRaw m e ∧ functionsRaw m e ≤ 100 :=
  ⟨calculate_tag_overlap_nonneg _ _, calculate_tag_overlap_le_100 _ _⟩

lemma calculate_match_score_decomp (m : MentorRow) (e : MenteeRow) :
    (calculate_match_score m e).1
      = round1 (sectorExpertiseRaw m e * (30/100) + languageRaw m e * (20/100)
          + formatRaw m e * (15/100) + timezoneRaw m e * (10/100)
          + availabilityRaw m e * (15/100) + functionsRaw m e * (10/100)) := by
  simp only [calculate_match_score, scoreComponents, sectorExpertiseRaw, languageRaw,
    formatRaw, timezoneRaw, availabilityRaw, functionsRaw]

lemma calculate_match_score_nonneg (m : MentorRow) (e : MenteeRow) :
    0 ≤ (calculate_match_score m e).1 := by
  rw [calculate_match_score_decomp]
  apply round1_nonneg
  nlinarith [(sectorExpertiseRaw_bounds m e).1, (languageRaw_bounds m e).1,
    (formatRaw_bounds m e).1, (timezoneRaw_bounds m e).1,
    (availabilityRaw_bounds m e).1, (functionsRaw_bounds m e).1]

lemma calculate_match_score_le_100 (m : MentorRow) (e : MenteeRow) :
    (calculate_match_score m e).1 ≤ 100 := by
  rw [calculate_match_score_decomp]
  apply round1_le_100
  nlinarith [(sectorExpertiseRaw_bounds m e).2, (languageRaw_bounds m e).2,
    (formatRaw_bounds m e).2, (timezoneRaw_bounds m e).2,
    (availabilityRaw_bounds m e).2, (functionsRaw_bounds m e).2]

/-- C1: for every mentor row and mentee row, with any combination of
present (`some`, possibly empty-string) or missing (`none`) attribute
values, the score is the weighted sum of the six raw component values,
each bounded in `[0,100]`, with weights
`0.30, 0.20, 0.15, 0.10, 0.15, 0.10` summing to `1`, rounded to one
decimal place; and the total always lies in `[0, 100]`.  The embedding
is a total function, so no input aborts the computation. -/
theorem C1_score_in_range (m : MentorRow) (e : MenteeRow) :
    (∀ r ∈ [sectorExpertiseRaw m e, languageRaw m e, formatRaw m e,
            timezoneRaw m e, availabilityRaw m e, functionsRaw m e],
        0 ≤ r ∧ r ≤ 100)
    ∧ (30:ℚ)/100 + 20/100 + 15/100 + 10/100 + 15/100 + 10/100 = 1
    ∧ (calculate_match_score m e).1
        = round1 (sectorExpertiseRaw m e * (30/100) + languageRaw m e * (20/100)
            + formatRaw m e * (15/100) + timezoneRaw m e * (10/100)
            + availabilityRaw m e * (15/100) + functionsRaw m e * (10/100))
    ∧ 0 ≤ (calculate_match_score m e).1 ∧ (calculate_match_score m e).1 ≤ 100 := by
  refine ⟨?_, by norm_num, calculate_match_score_decomp m e,
    calculate_match_score_nonneg m e, calculate_match_score_le_100 m e⟩
  intro r hr
  simp only [List.mem_cons, List.not_mem_nil, or_false] at hr
  rcases hr with rfl | rfl | rfl | rfl | rfl | rfl
  · exact sectorExpertiseRaw_bounds m e
  · exact languageRaw_bounds m e
  · exact formatRaw_bounds m e
  · exact timezoneRaw_bounds m e
  · exact availabilityRaw_bounds m e
  · exact functionsRaw_bounds m e

/-- Witness for C1 at the end-to-end scenario rows, instantiating the
bounded-component clause at the sector/expertise component. -/
theorem C1_score_in_range_witness :
    0 ≤ sectorExpertiseRaw mentorC8 menteeC8
    ∧ sectorExpertiseRaw mentorC8 menteeC8 ≤ 100 :=
  (C1_score_in_range mentorC8 menteeC8).1 _ (List.mem_cons_self _ _)

lemma foldl_append_flatten (f : MenteeRow → List ScoredCandidate) :
    ∀ (l : List MenteeRow) (acc : List ScoredCandidate),
      l.foldl (fun a e => a ++ f e) acc = acc ++ (l.map f).flatten := by
  intro l
  induction l with
  | nil => intro acc; simp
  | cons e rest ih =>
    intro acc
    simp only [List.foldl_cons, List.map_cons, List.flatten_cons, ih, List.append_assoc]

lemma scoreDescLe_trans (a b c : ScoredCandidate) :
    scoreDescLe a b → scoreDescLe b c → scoreDescLe a c := by
  simp only [scoreDescLe, decide_eq_true_eq]
  intro hab hbc
  exact le_trans hbc hab

lemma scoreDescLe_total (a b : ScoredCandidate) :
    scoreDescLe a b || scoreDescLe b a := by
  simp only [scoreDescLe]
  rcases le_total a.Score b.Score with h | h <;> simp [h]

lemma sortByScoreDesc_filter_stable (l : List ScoredCandidate)
    (p : ScoredCandidate → Bool)
    (hp : ∀ a b, p a = true → p b = true → scoreDescLe a b = true) :
    (sortByScoreDesc l).filter p = l.filter p := by
  have hpw : (l.filter p).Pairwise fun a b => scoreDescLe a b = true :=
    List.pairwise_of_forall_mem_list fun a ha b hb =>
      hp a b (List.of_mem_filter ha) (List.of_mem_filter hb)
  have hsub : List.Sublist (l.filter p) (sortByScoreDesc l) :=
    List.sublist_mergeSort scoreDescLe_trans scoreDescLe_total hpw (List.filter_sublist l)
  have hsub2 : List.Sublist (l.filter p) ((sortByScoreDesc l).filter p) := by
    have h2 : List.Sublist ((l.filter p).filter p) ((sortByScoreDesc l).filter p) :=
      hsub.filter p
    simpa [List.filter_filter, Bool.and_self] using h2
  have hperm : List.Perm ((sortByScoreDesc l).filter p) (l.filter p) :=
    (List.mergeSort_perm l scoreDescLe).filter p
  exact (hsub2.eq_of_length hperm.length_eq.symm).symm

/-- C2: for every mentor list, mentee list and positive `topN`,
`find_best_matches` equals the concatenation, in mentee input order, of
the per-mentee candidate lists, where each per-mentee list scores every
mentor (it is the stable descending sort of the full scored list,
hence a permutation of it), is sorted non-increasingly by score, keeps
score-ties in mentor input order (the filter at any fixed score is
unchanged by the sort), and is truncated to at most `topN` entries. -/
theorem C2_find_best_matches (mentors : List MentorRow) (mentees : List MenteeRow)
    (top_n : ℤ) (h : 0 < top_n) :
    find_best_matches mentors mentees top_n
      = (mentees.map fun e =>
          (sortByScoreDesc (mentee_matches_for mentors e)).take top_n.toNat).flatten
    ∧ ∀ e ∈ mentees,
        (sortByScoreDesc (mentee_matches_for mentors e)).Perm (mentee_matches_for mentors e)
      ∧ (sortByScoreDesc (mentee_matches_for mentors e)).Pairwise (fun a b => b.Score ≤ a.Score)
      ∧ (∀ s : ℚ,
          (sortByScoreDesc (mentee_matches_for mentors e)).filter (fun c => decide (c.Score = s))
            = (mentee_matches_for mentors e).filter (fun c => decide (c.Score = s)))
      ∧ ((sortByScoreDesc (mentee_matches_for mentors e)).take top_n.toNat).length
          ≤ top_n.toNat := by
  constructor
  · unfold find_best_matches
    rw [foldl_append_flatten, List.nil_append]
    congr 1
    apply List.map_congr_left
    intro e _
    simp [pyTake, h.le]
  · intro e _
    refine ⟨List.mergeSort_perm _ _, ?_, ?_, ?_⟩
    · have hs := List.sorted_mergeSort scoreDescLe_trans scoreDescLe_total
        (mentee_matches_for mentors e)
      exact hs.imp fun hab => of_decide_eq_true hab
    · intro s
      apply sortByScoreDesc_filter_stable
      intro a b ha hb
      simp only [decide_eq_true_eq] at ha hb
      simp [scoreDescLe, ha, hb]
    · rw [List.length_take]
      exact min_le_left _ _

/-- Witness for C2 at a concrete input: one mentor, one mentee,
`topN = 1`. -/
theorem C2_find_best_matches_witness :
    (find_best_matches [mentorC8] [menteeC8] 1
      = (([menteeC8]).map fun e =>
          (sortByScoreDesc (mentee_matches_for [mentorC8] e)).take (1:ℤ).toNat).flatten)
    ∧ (sortByScoreDesc (mentee_matches_for [mentorC8] menteeC8)).Perm
        (mentee_matches_for [mentorC8] menteeC8) :=
  ⟨(C2_find_best_matches [mentorC8] [menteeC8] 1 (by decide)).1,
   ((C2_find_best_matches [mentorC8] [menteeC8] 1 (by decide)).2 menteeC8
      (List.mem_cons_self _ _)).1⟩

/-- C3 counterexample: called with `topN = 0` on a non-empty mentor and
mentee pool, `find_best_matches` signals no error condition at all — it
silently returns the empty result list. -/
theorem C3_counterexample :
    find_best_matches [mentorC8] [menteeC8] 0 = [] := by
  simp [find_best_matches, pyTake]

/-- C3 amended: the ranking core performs no validation of `topN` (and
the threshold filter none of `minScoreThreshold`): no InvalidArgument
condition exists anywhere in the code path; in particular `topN = 0`
silently yields the empty result list for every input. -/
theorem C3_amended (mentors : List MentorRow) (mentees : List MenteeRow) :
    find_best_matches mentors mentees 0 = [] := by
  unfold find_best_matches
  rw [foldl_append_flatten, List.nil_append]
  rw [List.flatten_eq_nil_iff]
  intro l hl
  rcases List.mem_map.mp hl with ⟨e, _, rfl⟩
  simp [pyTake]

/-- C4 counterexample: both language cells hold the empty string — an
absent value under the claim's own definition, for which it demands
`false` — yet the code returns `true` (the two token sets both contain
the empty token). -/
theorem C4_counterexample :
    check_language_match (some emptyStr) (some emptyStr) = true := by decide

/-- C4 amended: `check_language_match` is false when either side is
`NaN`; on two present strings (empty ones included) it is true exactly
when the trimmed, case-insensitive comma-split token sets intersect —
empty or whitespace-only strings contribute the empty token, so two
empty strings count as sharing one. -/
theorem C4_amended :
    (∀ b, check_language_match none b = false)
    ∧ (∀ a, check_language_match a none = false)
    ∧ ∀ x y, (check_language_match (some x) (some y) = true
        ↔ ((tokenSet x) ∩ (tokenSet y)).Nonempty) := by
  refine ⟨?_, ?_, ?_⟩
  · intro b; cases b <;> rfl
  · intro a; cases a <;> rfl
  · intro x y
    simp only [check_language_match, decide_eq_true_eq]
    exact Finset.card_pos

/-- C5 counterexample: both availability cells hold the empty string,
which the claim counts as not non-empty (raw value 50), but the code
only tests `pd.isna` and assigns raw value 100. -/
theorem C5_counterexample :
    mentorEmptyAvail.Availability = some emptyStr
    ∧ menteeEmptyAvail.Availability = some emptyStr
    ∧ availabilityRaw mentorEmptyAvail menteeEmptyAvail = 100
    ∧ availabilityRawSpec mentorEmptyAvail menteeEmptyAvail = 50 := by
  refine ⟨rfl, rfl, ?_, ?_⟩
  · rfl
  · rfl

/-- C5 amended: the availability raw value is 100 exactly when both
availability cells are present (not `NaN`) — an empty string counts as
present — and 50 otherwise, and the component contributes the raw value
times the weight 0.15 to the score components. -/
theorem C5_amended (m : MentorRow) (e : MenteeRow) :
    (scoreComponents m e).availability = availabilityRaw m e * (15/100)
    ∧ (availabilityRaw m e = 100 ↔ m.Availability.isSome ∧ e.Availability.isSome)
    ∧ (availabilityRaw m e = 100 ∨ availabilityRaw m e = 50) := by
  refine ⟨rfl, ?_, ?_⟩
  · rcases hm : m.Availability with _ | x <;> rcases he : e.Availability with _ | y <;>
      simp [availabilityRaw, hm, he]
  · unfold availabilityRaw
    split_ifs
    · exact Or.inl rfl
    · exact Or.inr rfl

/-- C6 counterexample: an empty-string format cell is absent after
trimming, so the claim predicts compatibility with any value, but the
code compares it as an ordinary string and returns `false` against
"Remote". -/
theorem C6_counterexample :
    check_format_compatibility (some emptyStr) (some strRemote) = false
    ∧ formatsCompatibleSpec (some emptyStr) (some strRemote) = true := by
  constructor
  · decide
  · decide

/-- C6 amended: with absent meaning `NaN` only (empty strings are
compared as ordinary values), either side absent is compatible;
otherwise compatible iff either trimmed lower-cased value contains the
wildcard token "either" or the two trimmed lower-cased values are
equal; and the specification's example "Either" vs "In-person" is
compatible. -/
theorem C6_amended :
    (∀ b, check_format_compatibility none b = true)
    ∧ (∀ a, check_format_compatibility a none = true)
    ∧ (∀ x y, check_format_compatibility (some x) (some y) = true
        ↔ (pyInStr wildcardEither (pyLower (pyStrip x)) = true
            ∨ pyInStr wildcardEither (pyLower (pyStrip y)) = true
            ∨ pyLower (pyStrip x) = pyLower (pyStrip y)))
    ∧ check_format_compatibility (some strEither) (some strInPerson) = true := by
  refine ⟨?_, ?_, ?_, by decide⟩
  · intro b; cases b <;> rfl
  · intro a; cases a <;> rfl
  · intro x y
    simp only [check_format_compatibility]
    split_ifs with hw
    · simp only [Bool.or_eq_true] at hw
      constructor
      · intro _
        rcases hw with h | h
        · exact Or.inl h
        · exact Or.inr (Or.inl h)
      · intro _; rfl
    · simp only [Bool.or_eq_true, not_or, Bool.not_eq_true] at hw
      obtain ⟨h1, h2⟩ := hw
      simp only [beq_iff_eq]
      constructor
      · intro h; exact Or.inr (Or.inr h)
      · rintro (h | h | h)
        · rw [h] at h1; cases h1
        · rw [h] at h2; cases h2
        · exact h

lemma splitOnChar_ne_nil (sep : Char) (cs : List Char) : splitOnChar sep cs ≠ [] := by
  cases cs with
  | nil => simp [splitOnChar]
  | cons c rest =>
    simp only [splitOnChar]
    rcases h : splitOnChar sep rest with _ | ⟨p, t⟩
    · simp
    · cases hc : c == sep
      · simp
      · simp

lemma tokenSet_nonempty (s : String) : (tokenSet s).Nonempty := by
  unfold tokenSet pySplitComma
  rcases h : splitOnChar commaChar s.data with _ | ⟨p, t⟩
  · exact absurd h (splitOnChar_ne_nil _ _)
  · exact ⟨pyLower (pyStrip (String.mk p)), by simp⟩

lemma calculate_tag_overlap_eval (t1 t2 : String)
    (h1 : t1 ≠ emptyStr) (h2 : t2 ≠ emptyStr) :
    calculate_tag_overlap (some t1) (some t2)
      = ((tokenSet t1 ∩ tokenSet t2).card : ℚ)
          / ((tokenSet t1 ∪ tokenSet t2).card : ℚ) * 100 := by
  have hne : ¬(tokenSet t1 = ∅ ∨ tokenSet t2 = ∅) := by
    rw [not_or]
    exact ⟨Finset.nonempty_iff_ne_empty.mp (tokenSet_nonempty t1),
           Finset.nonempty_iff_ne_empty.mp (tokenSet_nonempty t2)⟩
  have hu : 0 < (tokenSet t1 ∪ tokenSet t2).card := by
    apply Finset.card_pos.mpr
    obtain ⟨x, hx⟩ := tokenSet_nonempty t1
    exact ⟨x, Finset.mem_union_left _ hx⟩
  simp only [calculate_tag_overlap]
  rw [if_neg (not_or.mpr ⟨h1, h2⟩), if_neg hne, if_pos hu]

/-- C7 counterexample: a whitespace-only string is empty after trimming
— absent under the specification's shared edge-case policy — yet the
code parses it to the token set containing the empty token and returns
100 for two such inputs, not 0. -/
theorem C7_counterexample :
    specAbsent (some strSpace) = true
    ∧ calculate_tag_overlap (some strSpace) (some strSpace) = 100 := by
  refine ⟨by decide, ?_⟩
  rw [calculate_tag_overlap_eval strSpace strSpace (by decide) (by decide)]
  rw [show (tokenSet strSpace ∩ tokenSet strSpace).card = 1 from by decide]
  rw [show (tokenSet strSpace ∪ tokenSet strSpace).card = 1 from by decide]
  norm_num

/-- C7 amended: `calculate_tag_overlap` is symmetric; it returns 0 when
either input is `NaN` or the empty string exactly (whitespace-only
strings are not special-cased: they parse to the token set containing
the empty token); on any other pair of present strings it returns the
Jaccard index of the token sets as a percentage; and the
specification's example evaluates to 100. -/
theorem C7_amended :
    (∀ a b, calculate_tag_overlap a b = calculate_tag_overlap b a)
    ∧ (∀ b, calculate_tag_overlap none b = 0)
    ∧ (∀ a, calculate_tag_overlap a none = 0)
    ∧ (∀ b, calculate_tag_overlap (some emptyStr) b = 0)
    ∧ (∀ a, calculate_tag_overlap a (some emptyStr) = 0)
    ∧ (∀ t1 t2 : String, t1 ≠ emptyStr → t2 ≠ emptyStr →
        calculate_tag_overlap (some t1) (some t2)
          = ((tokenSet t1 ∩ tokenSet t2).card : ℚ)
              / ((tokenSet t1 ∪ tokenSet t2).card : ℚ) * 100)
    ∧ calculate_tag_overlap (some strFinTechAI) (some strAiFintech) = 100 := by
  refine ⟨?_, ?_, ?_, ?_, ?_, calculate_tag_overlap_eval, ?_⟩
  · intro a b
    rcases a with _ | t1
    · rcases b with _ | t2 <;> rfl
    rcases b with _ | t2
    · rfl
    · simp [calculate_tag_overlap, Finset.inter_comm, Finset.union_comm, or_comm]
  · intro b; rfl
  · intro a; cases a <;> rfl
  · intro b
    rcases b with _ | t
    · rfl
    · simp only [calculate_tag_overlap]
      simp
  · intro a
    rcases a with _ | t
    · rfl
    · simp only [calculate_tag_overlap]
      simp
  · rw [calculate_tag_overlap_eval strFinTechAI strAiFintech (by decide) (by decide)]
    rw [show (tokenSet strFinTechAI ∩ tokenSet strAiFintech).card = 2 from by decide]
    rw [show (tokenSet strFinTechAI ∪ tokenSet strAiFintech).card = 2 from by decide]
    norm_num

/-- Witness for C7's amended Jaccard clause at the scenario's sector
strings. -/
theorem C7_amended_witness :
    calculate_tag_overlap (some strFinTechHealthTech) (some strFinTech)
      = ((tokenSet strFinTechHealthTech ∩ tokenSet strFinTech).card : ℚ)
          / ((tokenSet strFinTechHealthTech ∪ tokenSet strFinTech).card : ℚ) * 100 :=
  C7_amended.2.2.2.2.2.1 strFinTechHealthTech strFinTech (by decide) (by decide)

lemma roundHalfEven_intCast (n : ℤ) : roundHalfEven (n : ℚ) = n := by
  unfold roundHalfEven
  dsimp only
  rw [Int.floor_intCast, sub_self]
  rw [if_pos (by norm_num)]

lemma round1_84 : round1 (84 : ℚ) = 84 := by
  unfold round1
  rw [show (84:ℚ) * 10 = ((840:ℤ):ℚ) from by norm_num, roundHalfEven_intCast]
  norm_num

/-- C8: on the specification's end-to-end scenario the score is exactly
84.0, with weighted component values 24, 20, 15, 10, 15 and 0. -/
theorem C8_end_to_end :
    (calculate_match_score mentorC8 menteeC8).1 = 84
    ∧ scoreComponents mentorC8 menteeC8
        = { sector_expertise := 24, language := 20, format := 15,
            timezone := 10, availability := 15, functions := 0 } := by
  have hsec : calculate_tag_overlap mentorC8.Sectors menteeC8.Sector = 50 := by
    show calculate_tag_overlap (some strFinTechHealthTech) (some strFinTech) = 50
    rw [calculate_tag_overlap_eval _ _ (by decide) (by decide)]
    rw [show (tokenSet strFinTechHealthTech ∩ tokenSet strFinTech).card = 1 from by decide]
    rw [show (tokenSet strFinTechHealthTech ∪ tokenSet strFinTech).card = 2 from by decide]
    norm_num
  have hexp : calculate_tag_overlap mentorC8.Expertise menteeC8.Needs = 100 := by
    show calculate_tag_overlap (some strFundraising) (some strFundraising) = 100
    rw [calculate_tag_overlap_eval _ _ (by decide) (by decide)]
    rw [show (tokenSet strFundraising ∩ tokenSet strFundraising).card = 1 from by decide]
    rw [show (tokenSet strFundraising ∪ tokenSet strFundraising).card = 1 from by decide]
    norm_num
  have hfn : calculate_tag_overlap mentorC8.Functions menteeC8.Needs = 0 := by
    show calculate_tag_overlap (some emptyStr) (some strFundraising) = 0
    simp [calculate_tag_overlap]
  have hlang : check_language_match mentorC8.Languages menteeC8.Languages = true := by decide
  have hfmt : check_format_compatibility mentorC8.Format menteeC8.Format = true := by decide
  have htz : check_timezone_compatibility mentorC8.TimeZone menteeC8.TimeZone = true := by decide
  have hav : (mentorC8.Availability.isSome && menteeC8.Availability.isSome) = true := by decide
  have hcomp : scoreComponents mentorC8 menteeC8
      = { sector_expertise := 24, language := 20, format := 15,
          timezone := 10, availability := 15, functions := 0 } := by
    simp only [scoreComponents, hsec, hexp, hfn, hlang, htz, hfmt, hav, if_true]
    norm_num [ScoreComponents.mk.injEq]
  refine ⟨?_, hcomp⟩
  simp only [calculate_match_score, hcomp]
  norm_num
  exact round1_84

/-- C9: for every ranked result and every threshold, the Smart Matching
page's filter yields exactly the subsequence of ranked candidates whose
score is at least the threshold (so it never adds a candidate and
preserves relative order); and concretely, with a threshold of 101 a
mentee that ranking gave one candidate is left with zero, fewer than
`topN`. -/
theorem C9_threshold_filter (mentors : List MentorRow) (mentees : List MenteeRow)
    (top_n : ℤ) (t : ℚ) :
    List.Sublist (thresholdFilter (find_best_matches mentors mentees top_n) t)
        (find_best_matches mentors mentees top_n)
    ∧ (∀ c, c ∈ thresholdFilter (find_best_matches mentors mentees top_n) t
        ↔ c ∈ find_best_matches mentors mentees top_n ∧ t ≤ c.Score)
    ∧ thresholdFilter (find_best_matches [mentorC8] [menteeC8] 1) 101 = []
    ∧ (find_best_matches [mentorC8] [menteeC8] 1).length = 1 := by
  have h1 : find_best_matches [mentorC8] [menteeC8] 1
      = mentee_matches_for [mentorC8] menteeC8 := by
    simp [find_best_matches, pyTake, sortByScoreDesc, mentee_matches_for]
  have hlen : (find_best_matches [mentorC8] [menteeC8] 1).length = 1 := by
    rw [h1]; simp [mentee_matches_for]
  have hflt : thresholdFilter (find_best_matches [mentorC8] [menteeC8] 1) 101 = [] := by
    rw [h1]
    have hb : ¬ ((101:ℚ) ≤ (calculate_match_score mentorC8 menteeC8).1) := by
      have := calculate_match_score_le_100 mentorC8 menteeC8
      linarith
    simp [mentee_matches_for, thresholdFilter, List.filter_cons, hb]
  refine ⟨List.filter_sublist _, ?_, hflt, hlen⟩
  intro c
  simp [thresholdFilter, List.mem_filter]

lemma pyJoin_mem_length_le (sep : String) :
    ∀ (parts : List String), ∀ p ∈ parts, p.length ≤ (pyJoin sep parts).length := by
  intro parts
  induction parts with
  | nil => intro p hp; exact absurd hp (List.not_mem_nil p)
  | cons x rest ih =>
    intro p hp
    cases rest with
    | nil =>
      rw [List.mem_singleton] at hp
      subst hp
      exact Nat.le_refl _
    | cons y t =>
      rcases List.mem_cons.mp hp with rfl | h
      · have hd : pyJoin sep (p :: y :: t) = p ++ sep ++ pyJoin sep (y :: t) := rfl
        rw [hd, String.length_append, String.length_append]
        omega
      · have hle := ih p h
        have hd : pyJoin sep (x :: y :: t) = x ++ sep ++ pyJoin sep (y :: t) := rfl
        rw [hd, String.length_append, String.length_append]
        omega

lemma append_head_ne (a x t : String) (c : Char) (ha : a.data.head? = some c)
    (ht : t.data.head? ≠ some c) : a ++ x ≠ t := by
  intro h
  apply ht
  rw [← h, String.data_append]
  cases hd : a.data with
  | nil => simp [hd] at ha
  | cons b bs =>
    rw [hd] at ha
    simp only [List.head?_cons] at ha
    simpa only [List.cons_append, List.head?_cons] using ha

lemma pct_clause_ne (pre q t : String) (c : Char) (hpre : pre.data.head? = some c)
    (ht : t.data.head? ≠ some c) : pre ++ q ++ pctClose ≠ t := by
  rw [String.append_assoc]
  exact append_head_ne pre (q ++ pctClose) t c hpre ht

lemma p_pct_false (pre q : String) (c : Char) (hpre : pre.data.head? = some c)
    (h1 : commonLanguageClause.data.head? ≠ some c)
    (h2 : noLanguageClause.data.head? ≠ some c) :
    ((pre ++ q ++ pctClose == commonLanguageClause)
      || (pre ++ q ++ pctClose == noLanguageClause)) = false := by
  rw [Bool.or_eq_false_iff]
  constructor <;> rw [beq_eq_false_iff_ne]
  · exact pct_clause_ne pre q _ c hpre h1
  · exact pct_clause_ne pre q _ c hpre h2

/-- C10 (implicit): the rationale always contains exactly one language
clause — the positive one or the warning one, never both, never
neither — so the rationale string is never empty. -/
theorem C10_rationale_nonempty (m : MentorRow) (e : MenteeRow) :
    ((rationaleParts m e).countP
        (fun s => s == commonLanguageClause || s == noLanguageClause) = 1)
    ∧ (calculate_match_score m e).2 ≠ emptyStr := by
  constructor
  · have h3 : ∀ q, ((sectorClausePre ++ q ++ pctClose == commonLanguageClause)
        || (sectorClausePre ++ q ++ pctClose == noLanguageClause)) = false :=
      fun q => p_pct_false _ q 'S' (by decide) (by decide) (by decide)
    have h4 : ∀ q, ((expertiseClausePre ++ q ++ pctClose == commonLanguageClause)
        || (expertiseClausePre ++ q ++ pctClose == noLanguageClause)) = false :=
      fun q => p_pct_false _ q 'H' (by decide) (by decide) (by decide)
    have h5 : ∀ q, ((functionClausePre ++ q ++ pctClose == commonLanguageClause)
        || (functionClausePre ++ q ++ pctClose == noLanguageClause)) = false :=
      fun q => p_pct_false _ q 'F' (by decide) (by decide) (by decide)
    have h1 : ((formatClause == commonLanguageClause)
        || (formatClause == noLanguageClause)) = false := by decide
    have h2 : ((timezoneClause == commonLanguageClause)
        || (timezoneClause == noLanguageClause)) = false := by decide
    have h6 : ((commonLanguageClause == commonLanguageClause)
        || (commonLanguageClause == noLanguageClause)) = true := by decide
    have h7 : ((noLanguageClause == commonLanguageClause)
        || (noLanguageClause == noLanguageClause)) = true := by decide
    simp only [rationaleParts, List.countP_append]
    split_ifs <;>
      simp [List.countP_cons, List.countP_nil, h1, h2, h3, h4, h5, h6, h7]
  · have h2nd : (calculate_match_score m e).2 = pyJoin joinSep (rationaleParts m e) := rfl
    have hmem : (if check_language_match m.Languages e.Languages
        then commonLanguageClause else noLanguageClause) ∈ rationaleParts m e := by
      simp [rationaleParts]
    intro hcontra
    rw [h2nd] at hcontra
    have hlen := pyJoin_mem_length_le joinSep (rationaleParts m e) _ hmem
    rw [hcontra] at hlen
    have hz : emptyStr.length = 0 := by decide
    have hpos : 0 < (if check_language_match m.Languages e.Languages
        then commonLanguageClause else noLanguageClause).length := by
      split_ifs <;> decide
    omega
